import Mathlib

/-!
Shallow embedding of the managerai pipeline (insert.js, scrape.js,
updateNiceData.js, email.js and scrape.ts): the data model, the digest
summarizers, the metrics computation, the organization resolver, the
contributor enrichment and the three stage entry points, together with
theorems checking the specification claims against these definitions.

JavaScript numbers that the program uses for line counts and star counts are
nonnegative integers here (Nat); Math.round of a nonnegative rational is
modelled by jsRound.  Strings are Lean strings; a JavaScript string slice and
regexp replace are modelled on the underlying character list.  Network calls
and the text-completion service are oracles carried in an environment record,
returning Except values; a thrown error corresponds to an Except.error result.
-/

namespace ManagerAI

/-- Commit stats tuple as stored by scrape.js: additions, deletions, total. -/
structure StatsRec where
  additions : Nat
  deletions : Nat
  total : Nat
deriving DecidableEq

/-- CommitRecord as persisted into scraped_data by scrape.js (message, author,
diff, stats).  The stats field is an Option so that records whose upstream
detail lacked stats can be distinguished at the type level; scrape.js itself
always stores a value (claim C10). -/
structure CommitRec where
  message : String
  author : String
  diff : String
  stats : Option StatsRec
deriving DecidableEq

/-- RepositorySample as persisted into scraped_data by scrape.js.  The two
average fields are Options because the email.js summarizer explicitly tests
them against undefined. -/
structure RepoRec where
  name : String
  link : String
  stars : Nat
  top50contributors : List String
  commits : List CommitRec
  averageAdditions : Option Nat
  averageDeletions : Option Nat
deriving DecidableEq

/-- Math.round (num / den) for nonnegative integers: floor (num / den + 1/2),
with ties rounded up exactly as JavaScript does. -/
def jsRound (num den : Nat) : Nat :=
  (2 * num + den) / (2 * den)

/-- Accumulator triple used by the average-churn loops in scrape.js
(totalAdditions, totalDeletions, countStats local variables). -/
structure ChurnAcc where
  totalAdditions : Nat
  totalDeletions : Nat
  countStats : Nat
deriving DecidableEq

/-- Body of the accumulation loops of scrape.js lines 510 to 516 and 335 to
339: a commit with a stats value adds to the totals and the count, a commit
without one leaves the accumulator alone. -/
def churnStep (acc : ChurnAcc) (c : CommitRec) : ChurnAcc :=
  match c.stats with
  | some s =>
      { totalAdditions := acc.totalAdditions + s.additions,
        totalDeletions := acc.totalDeletions + s.deletions,
        countStats := acc.countStats + 1 }
  | none => acc

/-- Loop of scrape.js lines 510 to 516 and 335 to 339: walk the commits,
accumulating additions, deletions and a count over those with a stats value. -/
def churnFold (commits : List CommitRec) : ChurnAcc :=
  commits.foldl churnStep ⟨0, 0, 0⟩

/-- Metrics Computer of scrape.js main, lines 505 to 518: average additions and
deletions over the first three commits that carry stats, each average 0 when no
commit in that window carries stats. -/
def computeAverages (commitsData : List CommitRec) : Nat × Nat :=
  let acc := churnFold (commitsData.take 3)
  (if 0 < acc.countStats then jsRound acc.totalAdditions acc.countStats else 0,
   if 0 < acc.countStats then jsRound acc.totalDeletions acc.countStats else 0)

/-- Restatement of the spec wording for the Metrics Computer (spec section 4.4),
written over the list of stats tuples actually present: the averages of the
additions and deletions, rounded to the nearest integer, and (0, 0) when the
list is empty.  Used to compare computeAverages with the specified semantics. -/
def metricsSpec (statsList : List StatsRec) : Nat × Nat :=
  if statsList.length = 0 then (0, 0)
  else
    (jsRound (statsList.map StatsRec.additions).sum statsList.length,
     jsRound (statsList.map StatsRec.deletions).sum statsList.length)

/-- Diff excerpt of a commit, scrape.js line 333 and email.js line 252:
commit.diff.slice(0, 200) with every newline replaced by a space. -/
def diffExcerpt (d : String) : String :=
  String.mk ((d.data.take 200).map (fun c => if c = '\n' then ' ' else c))

/-- Rendering of one commit inside the digest, with its zero-based loop index:
Commit (index + 1) by author, a colon, the diff excerpt and an ellipsis. -/
def commitLine (idx : Nat) (c : CommitRec) : String :=
  "Commit " ++ toString (idx + 1) ++ " by " ++ c.author ++ ":\n"
    ++ diffExcerpt c.diff ++ "...\n\n"

/-- Accumulation of the forEach loop over the included commits, threading the
running index. -/
def commitsBlockAux (idx : Nat) : List CommitRec → String
  | [] => ""
  | c :: rest => commitLine idx c ++ commitsBlockAux (idx + 1) rest

/-- Concatenated commit lines for the included commits, indices starting at 0. -/
def commitsBlock (commits : List CommitRec) : String :=
  commitsBlockAux 0 commits

/-- Header block of the digest: top repository name, stars and link. -/
def summaryHeader (repo : RepoRec) : String :=
  "Top Repository:\n" ++ "Name: " ++ repo.name ++ "\nStars: "
    ++ toString repo.stars ++ "\nLink: " ++ repo.link ++ "\n\n"

/-- Average-changes line appended at the end of a digest. -/
def avgLine (a d : Nat) : String :=
  "Average changes per commit: +" ++ toString a ++ " lines, -"
    ++ toString d ++ " lines.\n"

/-- Stable insertion of a repository into a list already sorted by descending
star count.  Under the foldr below the inserted element comes from an earlier
position of the original list than every element already sorted, so it passes
only elements with strictly more stars and lands before the first element
with at most as many: ties keep original order, matching the stable
JavaScript sort with comparator (a, b) => b.stars - a.stars. -/
def insertByStars (r : RepoRec) : List RepoRec → List RepoRec
  | [] => [r]
  | y :: ys => if r.stars < y.stars then y :: insertByStars r ys else r :: y :: ys

/-- Stable sort by descending star count, as Array.prototype.sort performs in
place on the scraped data array. -/
def sortByStarsDesc (l : List RepoRec) : List RepoRec :=
  l.foldr insertByStars []

/-- Body of the scrape.js digest for the chosen top repository, lines 322 to
346: header, then (when commits exist) the first three commits and, when at
least one of them carries stats, the averaged additions and deletions computed
across exactly those included commits. -/
def summarizeBody (topRepo : RepoRec) : String :=
  if topRepo.commits.isEmpty then summaryHeader topRepo
  else
    let commitsToInclude := topRepo.commits.take 3
    let acc := churnFold commitsToInclude
    let base := summaryHeader topRepo ++ "Top 3 Recent Commits:\n"
      ++ commitsBlock commitsToInclude
    if 0 < acc.countStats then
      base ++ avgLine (jsRound acc.totalAdditions acc.countStats)
        (jsRound acc.totalDeletions acc.countStats)
    else base

/-- summarizeScrapedData of scrape.js, lines 313 to 348.  The input array is
sorted in place by descending stars before the top repository is read, so the
function returns both the summary string and the array value after the call;
the guard for a null, non-array or empty input returns the sentinel without
sorting (the null and non-array cases live at the Option level in
summarizeOpt).  sortByStarsDesc of a list is empty exactly when the list is
empty, so the first match arm is the empty-input guard. -/
def summarizeScrapedData (scrapedData : List RepoRec) : String × List RepoRec :=
  match sortByStarsDesc scrapedData with
  | [] => ("No repository data available.", scrapedData)
  | topRepo :: rest => (summarizeBody topRepo, topRepo :: rest)

/-- Body of the email.js digest (the variant of email.js in email_structure.md
lines 235 to 262) for the chosen top repository: header, first three commits,
and then the repository-level averageAdditions and averageDeletions fields
whenever both are defined. -/
def emailBody (topRepo : RepoRec) : String :=
  let base :=
    if topRepo.commits.isEmpty then summaryHeader topRepo
    else summaryHeader topRepo ++ "Top 3 Recent Commits:\n"
      ++ commitsBlock (topRepo.commits.take 3)
  match topRepo.averageAdditions, topRepo.averageDeletions with
  | some a, some d => base ++ avgLine a d
  | _, _ => base

/-- summarizeScrapedData of email.js (email_structure.md lines 235 to 262),
with the same in-place sort as the scrape.js variant. -/
def summarizeScrapedDataEmail (scrapedData : List RepoRec) : String × List RepoRec :=
  match sortByStarsDesc scrapedData with
  | [] => ("No repository data available.", scrapedData)
  | topRepo :: rest => (emailBody topRepo, topRepo :: rest)

/-- Digest of a scraped_data column that may be null or not an array: the
guard of summarizeScrapedData returns the sentinel in that case. -/
def summarizeOpt (sd : Option (List RepoRec)) : String :=
  match sd with
  | none => "No repository data available."
  | some l => (summarizeScrapedDataEmail l).1

/-- Failure raised by the organization resolver (the catch around the URL
parse in scrape.js lines 380 to 391 and scrape.ts lines 60 to 71). -/
inductive ResolveErr where
  | invalidProfileURL
deriving DecidableEq

/-- Scheme and authority marker of the WHATWG parse, modelled for the http and
https schemes the company websites use: strip the scheme and the two slashes,
or fail as new URL does on an input it cannot parse. -/
def dropScheme (cs : List Char) : Option (List Char) :=
  match cs with
  | 'h' :: 't' :: 't' :: 'p' :: 's' :: ':' :: '/' :: '/' :: rest => some rest
  | 'h' :: 't' :: 't' :: 'p' :: ':' :: '/' :: '/' :: rest => some rest
  | _ => none

/-- url.pathname for an http or https URL: the part after the authority,
starting at the first slash, up to a query or fragment marker. -/
def pathnameChars (rest : List Char) : List Char :=
  (rest.dropWhile (fun c => !(c == '/'))).takeWhile
    (fun c => !(c == '?') && !(c == '#'))

/-- pathname.split of a slash, as the JavaScript split produces it: an empty
input gives one empty segment, and each slash opens a new segment. -/
def splitOnSlash : List Char → List (List Char)
  | [] => [[]]
  | c :: rest =>
    if c = '/' then [] :: splitOnSlash rest
    else
      match splitOnSlash rest with
      | [] => [[c]]
      | s :: ss => (c :: s) :: ss

/-- Organization Resolver of scrape.js lines 380 to 391 on the character list
of the URL: parse, split the pathname on slashes, discard empty segments with
filter(Boolean), and take the first segment or fail. -/
def resolveOrgChars (cs : List Char) : Except ResolveErr String :=
  match dropScheme cs with
  | none => .error .invalidProfileURL
  | some rest =>
    match (splitOnSlash (pathnameChars rest)).filter (fun seg => !seg.isEmpty) with
    | [] => .error .invalidProfileURL
    | seg :: _ => .ok (String.mk seg)

/-- Organization Resolver on the website string. -/
def resolveOrg (website : String) : Except ResolveErr String :=
  resolveOrgChars website.data

/-- Record-store failure (the error component of a supabase single-row read). -/
inductive DbErr where
  | notFound
  | unavailable
deriving DecidableEq

/-- Upstream repository/commit/profile service failure. -/
inductive UpErr where
  | orgNotFound
  | unavailable
deriving DecidableEq

/-- Text-completion service failure. -/
inductive GenErr where
  | unavailable
deriving DecidableEq

/-- CompanyProfile row as the stages read it. -/
structure Company where
  name : String
  website : String
  manager_name : Option String
  scraped_data : Option (List RepoRec)
deriving DecidableEq

/-- Repository as returned by the repository-listing service. -/
structure RawRepo where
  name : String
  html_url : String
  stargazers_count : Nat
deriving DecidableEq

/-- User profile as returned by the profile service; name and bio may be null. -/
structure UserProfile where
  name : Option String
  bio : Option String
deriving DecidableEq

/-- One changed file inside a commit detail; the patch may be missing. -/
structure FileRec where
  filename : String
  patch : Option String
deriving DecidableEq

/-- Commit detail as returned by the get-commit service call. -/
structure CommitDetail where
  authorLogin : Option String
  commitAuthorName : Option String
  message : String
  files : List FileRec
  stats : Option StatsRec
deriving DecidableEq

/-- Rendering of one changed file inside the aggregated diff, scrape.js lines
477 to 482.  The guard is the JavaScript truthiness test if (file.patch), so
a present but empty patch string falls through to the no-patch block. -/
def renderFile (f : FileRec) : String :=
  match f.patch with
  | some p =>
    if p = "" then "File: " ++ f.filename ++ " (no patch available)\n"
    else "File: " ++ f.filename ++ "\n" ++ p ++ "\n"
  | none => "File: " ++ f.filename ++ " (no patch available)\n"

/-- Aggregated diff text of a commit, scrape.js lines 474 to 486: the per-file
renderings joined with a newline, or the sentinel when no file changed. -/
def diffText (files : List FileRec) : String :=
  if files.isEmpty then "No file changes found for this commit."
  else String.intercalate "\n" (files.map renderFile)

/-- JavaScript a || b for an optional string a: the empty string is falsy. -/
def jsOr (a : Option String) (b : String) : String :=
  match a with
  | some s => if s = "" then b else s
  | none => b

/-- Author resolution of scrape.js lines 469 to 472: the linked profile login,
else the raw commit author name, else the sentinel Unknown. -/
def commitAuthorOf (d : CommitDetail) : String :=
  jsOr d.authorLogin (jsOr d.commitAuthorName "Unknown")

/-- CommitRecord built from one commit detail, scrape.js lines 488 to 496:
a missing stats object is replaced by an all-zero one. -/
def mkCommitRecord (d : CommitDetail) : CommitRec :=
  { message := d.message,
    author := commitAuthorOf d,
    diff := diffText d.files,
    stats := some (d.stats.getD ⟨0, 0, 0⟩) }

/-- Environment of the scrape stage: the record-store read for the company and
the upstream service oracles.  A thrown service error is an Except.error. -/
structure ScrapeEnv where
  db : Except DbErr (Option Company)
  listForOrg : String → Except UpErr (List RawRepo)
  listContributors : String → String → Except UpErr (List String)
  getUser : String → Except UpErr UserProfile
  listCommits : String → String → Except UpErr (List String)
  getCommit : String → String → String → Except UpErr CommitDetail

/-- Contributor list of scrape.js lines 421 to 446: the top-50 logins, each
resolved to a display name with fallback to the login; a listing failure
leaves the list empty. -/
def fetchContributors (env : ScrapeEnv) (orgName repoName : String) : List String :=
  match env.listContributors orgName repoName with
  | .error _ => []
  | .ok logins =>
    logins.map (fun login =>
      match env.getUser login with
      | .error _ => login
      | .ok u => jsOr u.name login)

/-- Commit list of scrape.js lines 448 to 503: the recent commit shas, each
resolved to a CommitRecord; a commit whose detail fetch fails is skipped, and
a listing failure leaves the list empty. -/
def fetchCommits (env : ScrapeEnv) (orgName repoName : String) : List CommitRec :=
  match env.listCommits orgName repoName with
  | .error _ => []
  | .ok shas =>
    shas.filterMap (fun sha =>
      match env.getCommit orgName repoName sha with
      | .error _ => none
      | .ok d => some (mkCommitRecord d))

/-- Repository record assembled by scrape.js lines 417 to 531 for one selected
repository, including the averages over the first three commits. -/
def processRepo (env : ScrapeEnv) (orgName : String) (repo : RawRepo) : RepoRec :=
  let contributors := fetchContributors env orgName repo.name
  let commitsData := fetchCommits env orgName repo.name
  let avgs := computeAverages commitsData
  { name := repo.name,
    link := repo.html_url,
    stars := repo.stargazers_count,
    top50contributors := contributors,
    commits := commitsData,
    averageAdditions := some avgs.1,
    averageDeletions := some avgs.2 }

/-- Stable insertion for the raw-repository sort by descending stargazer
count, with the same tie handling as insertByStars: the element being
inserted is original-earlier, so it lands before the first element with at
most as many stars. -/
def insertRawByStars (r : RawRepo) : List RawRepo → List RawRepo
  | [] => [r]
  | y :: ys =>
    if r.stargazers_count < y.stargazers_count then y :: insertRawByStars r ys
    else r :: y :: ys

/-- Stable sort of the fetched repositories by descending stargazer count. -/
def sortRawDesc (l : List RawRepo) : List RawRepo :=
  l.foldr insertRawByStars []

/-- Scrape stage entry point, scrape.js main.  The value is the scraped_data
update the stage issues to the record store, or none when the stage returns
without issuing one: on a record-store error, on a missing company row, on an
unparsable website URL, and when the repository listing throws, since that
call sits outside any inner try and its error reaches the stage-level catch
(lines 548 to 550) before the update at line 537. -/
def mainScrape (env : ScrapeEnv) : Option (List RepoRec) :=
  match env.db with
  | .error _ => none
  | .ok none => none
  | .ok (some company) =>
    match resolveOrg company.website with
    | .error _ => none
    | .ok orgName =>
      match env.listForOrg orgName with
      | .error _ => none
      | .ok repos =>
        let topRepos := (sortRawDesc repos).take 1
        some (topRepos.map (processRepo env orgName))

/-- Environment of the enrichment stage (updateNiceData.js): the record-store
read, the profile and repository oracles, and the text-completion oracles.
The fixed prompt templates wrapped around the message, the diff and the
bio/repo-info pair belong to the external Narrative Generator contract, so
each completion oracle takes the variable payload directly. -/
structure NiceEnv where
  db : Except DbErr (Option Company)
  chatMsg : String → Except GenErr String
  chatDiff : String → Except GenErr String
  chatTech : String → String → Except GenErr String
  getUser : String → Except UpErr UserProfile
  listReposForUser : String → Except UpErr (List RawRepo)
  listLanguages : String → String → Except UpErr (List String)

/-- summarizeCommitMessage of updateNiceData.js lines 85 to 103: the trimmed
completion, with the sentinel on a service error or an all-whitespace reply. -/
def summarizeCommitMessage (env : NiceEnv) (commitMessage : String) : String :=
  match env.chatMsg commitMessage with
  | .error _ => "No summary available."
  | .ok content =>
    if content.trim = "" then "No summary available." else content.trim

/-- summarizeCommitDiff of updateNiceData.js lines 110 to 126, with its own
sentinel. -/
def summarizeCommitDiff (env : NiceEnv) (diff : String) : String :=
  match env.chatDiff diff with
  | .error _ => "Summary not available."
  | .ok content =>
    if content.trim = "" then "Summary not available." else content.trim

/-- Parse of the technology completion, updateNiceData.js line 171: trim, split
on commas, trim each entry, and drop the empty ones. -/
def parseTechList (content : String) : List String :=
  ((content.trim.splitOn ",").map String.trim).filter (fun t => t ≠ "")

/-- Repository info line built for the technology prompt, updateNiceData.js
lines 151 to 160. -/
def repoInfoLine (repoName : String) (languages : List String) : String :=
  "Repository: " ++ repoName ++ ". Languages: "
    ++ String.intercalate ", " languages ++ "."

/-- getTechnologiesForContributor of updateNiceData.js lines 133 to 176: fetch
the profile bio, the highest-starred repository and its languages, then ask
the completion service for a comma-separated list; any failure along the
chain is caught and yields the empty list. -/
def getTechnologiesForContributor (env : NiceEnv) (author : String) : List String :=
  match env.getUser author with
  | .error _ => []
  | .ok user =>
    match env.listReposForUser author with
    | .error _ => []
    | .ok repos =>
      let repoInfoRes : Except UpErr String :=
        match repos with
        | [] => .ok ""
        | topRepo :: _ =>
          match env.listLanguages author topRepo.name with
          | .error e => .error e
          | .ok langs => .ok (repoInfoLine topRepo.name langs)
      match repoInfoRes with
      | .error _ => []
      | .ok repoInfo =>
        match env.chatTech (jsOr user.bio "") repoInfo with
        | .error _ => []
        | .ok content => parseTechList content

/-- ContributorProfile entry pushed into people; the failure branch of the
per-author try in updateNiceData.js lines 234 to 254 carries no name field
and an empty technology list. -/
structure Person where
  username : String
  name : Option String
  technologies : List String
deriving DecidableEq

/-- Per-author body of the people loop, updateNiceData.js lines 234 to 254:
the technology list, then the display-name fetch; when the latter throws the
catch pushes the username with an empty technology list. -/
def mkPerson (env : NiceEnv) (author : String) : Person :=
  let techList := getTechnologiesForContributor env author
  match env.getUser author with
  | .error _ => { username := author, name := none, technologies := [] }
  | .ok u =>
    { username := author,
      name := some (jsOr u.name author),
      technologies := techList }

/-- Iteration order of a JavaScript Set built from a list: each element at its
first occurrence. -/
def dedupAux : List String → List String → List String
  | [], _ => []
  | a :: rest, seen =>
    if a ∈ seen then dedupAux rest seen else a :: dedupAux rest (a :: seen)

/-- new Set(list) in iteration order: the list with later duplicates removed. -/
def dedupKeepFirst (l : List String) : List String :=
  dedupAux l []

/-- people sequence of one repository, updateNiceData.js lines 231 to 254: one
entry per distinct commit author, in first-occurrence order. -/
def peopleOf (env : NiceEnv) (commits : List CommitRec) : List Person :=
  (dedupKeepFirst (commits.map CommitRec.author)).map (mkPerson env)

/-- Commit entry of nice_data, updateNiceData.js lines 217 to 228: the diff is
replaced by its summary (or a sentinel when empty), the message gains a
summary, the stats are carried over. -/
structure NiceCommit where
  message : String
  messageSummary : String
  author : String
  summary : String
  stats : Option StatsRec
deriving DecidableEq

/-- Repository entry of nice_data, updateNiceData.js lines 204 to 256. -/
structure NiceRepo where
  name : String
  link : String
  stars : Nat
  top50contributors : List String
  commits : List NiceCommit
  averageAdditions : Option Nat
  averageDeletions : Option Nat
  people : List Person
deriving DecidableEq

/-- Transformation of one commit for nice_data; a falsy diff or message (the
empty string) short-circuits to its sentinel without a service call. -/
def niceCommitOf (env : NiceEnv) (c : CommitRec) : NiceCommit :=
  { message := c.message,
    messageSummary :=
      if c.message = "" then "No message available."
      else summarizeCommitMessage env c.message,
    author := c.author,
    summary :=
      if c.diff = "" then "No diff available."
      else summarizeCommitDiff env c.diff,
    stats := c.stats }

/-- Transformation of one repository for nice_data. -/
def niceRepoOf (env : NiceEnv) (repo : RepoRec) : NiceRepo :=
  { name := repo.name,
    link := repo.link,
    stars := repo.stars,
    top50contributors := repo.top50contributors,
    commits := repo.commits.map (niceCommitOf env),
    averageAdditions := repo.averageAdditions,
    averageDeletions := repo.averageDeletions,
    people := peopleOf env repo.commits }

/-- Enrichment stage entry point, updateNiceData.js lines 184 to 272.  The
value is the nice_data update the stage issues, or none when it returns
early: on a record-store error, a missing company row, or a scraped_data
column that is null or not an array. -/
def updateNiceData (env : NiceEnv) : Option (List NiceRepo) :=
  match env.db with
  | .error _ => none
  | .ok none => none
  | .ok (some company) =>
    match company.scraped_data with
    | none => none
    | some scrapedData => some (scrapedData.map (niceRepoOf env))

/-- Environment of the email stage (the email.js variant of email_structure.md
lines 203 to 367): the record-store read and the completion oracle.  The
fixed prompt template around the digest and the company fields belongs to the
external Narrative Generator contract, so the oracle takes the digest
directly. -/
structure EmailEnv where
  db : Except DbErr (Option Company)
  chat : String → Except GenErr String

/-- Email stage entry point, email.js main.  The value is the email update the
stage issues, or none when it returns early: on a record-store error, on a
missing company row, and when the completion call inside generateEmail
throws, since that error reaches the stage-level catch before the update. -/
def emailMain (env : EmailEnv) : Option String :=
  match env.db with
  | .error _ => none
  | .ok none => none
  | .ok (some company) =>
    match env.chat (summarizeOpt company.scraped_data) with
    | .error _ => none
    | .ok content => some content

/-! Concrete records and environments used by the concrete checks below. -/

/-- Commit with stats (+10, -2). -/
def cCommitA : CommitRec :=
  { message := "m1", author := "x", diff := "da", stats := some ⟨10, 2, 12⟩ }

/-- Commit with stats (+20, -4). -/
def cCommitB : CommitRec :=
  { message := "m2", author := "y", diff := "db", stats := some ⟨20, 4, 24⟩ }

/-- Commit without stats. -/
def cCommitN : CommitRec :=
  { message := "m3", author := "x", diff := "dc", stats := none }

/-- Repository whose stored average fields disagree with the averages of its
commits, to separate the two digest variants. -/
def cRepoAvg : RepoRec :=
  { name := "r", link := "l", stars := 5, top50contributors := [],
    commits := [cCommitA, cCommitB], averageAdditions := some 999,
    averageDeletions := some 999 }

/-- Repository with one star, listed first. -/
def cRepoLow : RepoRec :=
  { name := "alpha", link := "la", stars := 1, top50contributors := [],
    commits := [], averageAdditions := none, averageDeletions := none }

/-- Repository with five stars, listed second. -/
def cRepoHigh : RepoRec :=
  { name := "beta", link := "lb", stars := 5, top50contributors := [],
    commits := [], averageAdditions := none, averageDeletions := none }

/-- Five commits for the five-commit digest check; the first diff holds a
newline and the third is longer than 200 characters would require. -/
def wCommit1 : CommitRec :=
  { message := "w1", author := "ann", diff := "l1\nl2", stats := some ⟨10, 2, 12⟩ }

/-- Second of the five commits. -/
def wCommit2 : CommitRec :=
  { message := "w2", author := "bob", diff := "d2", stats := none }

/-- Third of the five commits. -/
def wCommit3 : CommitRec :=
  { message := "w3", author := "cat", diff := "d3\n", stats := some ⟨5, 1, 6⟩ }

/-- Fourth of the five commits; it must not appear in the digest. -/
def wCommit4 : CommitRec :=
  { message := "w4", author := "dan", diff := "d4", stats := some ⟨100, 100, 200⟩ }

/-- Fifth of the five commits; it must not appear in the digest. -/
def wCommit5 : CommitRec :=
  { message := "w5", author := "eve", diff := "d5", stats := none }

/-- Repository carrying the five commits. -/
def wRepo5 : RepoRec :=
  { name := "gamma", link := "lg", stars := 7, top50contributors := [],
    commits := [wCommit1, wCommit2, wCommit3, wCommit4, wCommit5],
    averageAdditions := none, averageDeletions := none }

/-- Company row with a parsable organization website. -/
def companyAcme : Company :=
  { name := "Acme", website := "https://github.com/acme", manager_name := none,
    scraped_data := none }

/-- Repository returned by the listing oracle of the successful environment. -/
def rawRepoOk : RawRepo :=
  { name := "repo1", html_url := "https://github.com/acme/repo1",
    stargazers_count := 3 }

/-- Commit detail without stats returned by the successful environment. -/
def detailNoStats : CommitDetail :=
  { authorLogin := some "dev", commitAuthorName := none, message := "msg",
    files := [], stats := none }

/-- Scrape environment whose repository listing fails while everything else
succeeds. -/
def envListFail : ScrapeEnv :=
  { db := .ok (some companyAcme),
    listForOrg := fun _ => .error .unavailable,
    listContributors := fun _ _ => .ok [],
    getUser := fun _ => .ok ⟨none, none⟩,
    listCommits := fun _ _ => .ok [],
    getCommit := fun _ _ _ => .error .unavailable }

/-- Scrape environment where every call succeeds and the one commit carries no
stats. -/
def envScrapeOk : ScrapeEnv :=
  { db := .ok (some companyAcme),
    listForOrg := fun _ => .ok [rawRepoOk],
    listContributors := fun _ _ => .ok [],
    getUser := fun _ => .ok ⟨none, none⟩,
    listCommits := fun _ _ => .ok ["sha1"],
    getCommit := fun _ _ _ => .ok detailNoStats }

/-- Scrape environment whose record-store read finds no row. -/
def envScrapeDbNone : ScrapeEnv :=
  { db := .ok none,
    listForOrg := fun _ => .ok [],
    listContributors := fun _ _ => .ok [],
    getUser := fun _ => .ok ⟨none, none⟩,
    listCommits := fun _ _ => .ok [],
    getCommit := fun _ _ _ => .error .unavailable }

/-- Enrichment environment whose record-store read finds no row and whose
other oracles all fail. -/
def envNiceDbNone : NiceEnv :=
  { db := .ok none,
    chatMsg := fun _ => .error .unavailable,
    chatDiff := fun _ => .error .unavailable,
    chatTech := fun _ _ => .error .unavailable,
    getUser := fun _ => .error .unavailable,
    listReposForUser := fun _ => .error .unavailable,
    listLanguages := fun _ _ => .error .unavailable }

/-- Email environment whose record-store read finds no row. -/
def envEmailDbNone : EmailEnv :=
  { db := .ok none, chat := fun _ => .error .unavailable }

/-- Commit record with a given author and nothing else, for the deduplication
checks. -/
def authoredCommit (a : String) : CommitRec :=
  { message := "", author := a, diff := "", stats := none }

/-! Helper lemmas. -/

/-- Closed form of the churn loop from any starting accumulator: it adds the
sums and the count of the stats tuples present in the list. -/
theorem churnFold_go (l : List CommitRec) (acc : ChurnAcc) :
    l.foldl churnStep acc =
      ⟨acc.totalAdditions + ((l.filterMap CommitRec.stats).map StatsRec.additions).sum,
       acc.totalDeletions + ((l.filterMap CommitRec.stats).map StatsRec.deletions).sum,
       acc.countStats + (l.filterMap CommitRec.stats).length⟩ := by
  induction l generalizing acc with
  | nil => simp
  | cons c rest ih =>
    cases h : c.stats with
    | none =>
      simp only [List.foldl_cons, List.filterMap_cons, h]
      rw [ih]
      simp [churnStep, h]
    | some s =>
      simp only [List.foldl_cons, List.filterMap_cons, h]
      rw [ih]
      simp only [churnStep, h, List.map_cons, List.sum_cons, List.length_cons,
        ChurnAcc.mk.injEq]
      refine ⟨by omega, by omega, by omega⟩

/-- Closed form of churnFold. -/
theorem churnFold_eq (l : List CommitRec) :
    churnFold l =
      ⟨((l.filterMap CommitRec.stats).map StatsRec.additions).sum,
       ((l.filterMap CommitRec.stats).map StatsRec.deletions).sum,
       (l.filterMap CommitRec.stats).length⟩ := by
  have h := churnFold_go l ⟨0, 0, 0⟩
  simpa [churnFold] using h

/-- Claim C1: given the aggregated commit list of a repository, the Metrics
Computer averages additions and deletions over the most recent 3 commits that
carry a stats tuple, rounding to nearest; commits without stats are excluded
from both the sums and the count (equivalence with the metricsSpec
restatement), the commits with stats (+10, -2), (+20, -4) and a statless one
give (15, 3), and zero qualifying commits give (0, 0) with no
division-by-zero fault. -/
theorem C1_metrics_computer :
    (∀ commits : List CommitRec,
        computeAverages commits
          = metricsSpec ((commits.take 3).filterMap CommitRec.stats))
      ∧ computeAverages [cCommitA, cCommitB, cCommitN] = (15, 3)
      ∧ computeAverages [cCommitN] = (0, 0)
      ∧ computeAverages [] = (0, 0) := by
  refine ⟨?_, by decide, by decide, by decide⟩
  intro commits
  simp only [computeAverages, metricsSpec, churnFold_eq]
  rcases Nat.eq_zero_or_pos ((commits.take 3).filterMap CommitRec.stats).length with h | h
  · simp [h]
  · simp [h, Nat.pos_iff_ne_zero.mp h]

/-- Insertion into a list is never empty. -/
theorem insertByStars_ne_nil (r : RepoRec) (l : List RepoRec) :
    insertByStars r l ≠ [] := by
  cases l with
  | nil => simp [insertByStars]
  | cons y ys =>
    simp only [insertByStars]
    split <;> simp

/-- Insertion permutes the element onto the list. -/
theorem insertByStars_perm (r : RepoRec) (l : List RepoRec) :
    List.Perm (insertByStars r l) (r :: l) := by
  induction l with
  | nil => simp [insertByStars]
  | cons y ys ih =>
    simp only [insertByStars]
    split
    · exact (ih.cons y).trans (List.Perm.swap r y ys)
    · exact List.Perm.refl _

/-- The stable star sort permutes its input. -/
theorem sortByStarsDesc_perm (l : List RepoRec) :
    List.Perm (sortByStarsDesc l) l := by
  induction l with
  | nil => simp [sortByStarsDesc]
  | cons x xs ih =>
    have h : sortByStarsDesc (x :: xs) = insertByStars x (sortByStarsDesc xs) := rfl
    rw [h]
    exact (insertByStars_perm x _).trans (ih.cons x)

/-- The stable star sort of a list is empty only for the empty list. -/
theorem sortByStarsDesc_eq_nil (l : List RepoRec) (h : sortByStarsDesc l = []) :
    l = [] := by
  cases l with
  | nil => rfl
  | cons x xs => exact absurd h (insertByStars_ne_nil x (sortByStarsDesc xs))

/-- Claim C4 (counterexample): the Digest Summarizer does mutate its input
array: for the two-element input with the lower-starred repository first, the
array after the call is the reversed pair, so the element order is not
preserved. -/
theorem C4_cex_summarizer_mutates_order :
    (summarizeScrapedData [cRepoLow, cRepoHigh]).2 = [cRepoHigh, cRepoLow]
      ∧ (summarizeScrapedData [cRepoLow, cRepoHigh]).2 ≠ [cRepoLow, cRepoHigh] := by
  refine ⟨by decide, by decide⟩

/-- Claim C4 (amended): summarizeScrapedData sorts its input array in place by
descending star count, so after the call the array holds the same elements,
each unmutated, as a permutation of the input (the stable descending sort);
the original order is preserved only when the input was already sorted. -/
theorem C4_summarizer_sorts_in_place :
    ∀ l : List RepoRec,
      (summarizeScrapedData l).2 = sortByStarsDesc l
        ∧ List.Perm (summarizeScrapedData l).2 l := by
  intro l
  have h2 : (summarizeScrapedData l).2 = sortByStarsDesc l := by
    unfold summarizeScrapedData
    cases h : sortByStarsDesc l with
    | nil => simp [sortByStarsDesc_eq_nil l h, h]
    | cons a rest => simp
  exact ⟨h2, h2 ▸ sortByStarsDesc_perm l⟩

/-- Claim C5: the Digest Summarizer returns exactly the sentinel for an empty
or non-array repository sequence, and for a single repository with 5 commits
it includes exactly the first 3 commits in their original order, each rendered
as Commit (1-based index) by author, a colon, and the first at most 200
characters of the diff with every newline replaced by a space, followed by the
average-changes tail when stats are present among those 3. -/
theorem C5_digest_empty_and_five_commits :
    ((summarizeScrapedData []).1 = "No repository data available.")
      ∧ summarizeOpt none = "No repository data available."
      ∧ (∀ (repo : RepoRec) (c1 c2 c3 c4 c5 : CommitRec),
          repo.commits = [c1, c2, c3, c4, c5] →
          (summarizeScrapedData [repo]).1 =
            "Top Repository:\n" ++ "Name: " ++ repo.name ++ "\nStars: "
              ++ toString repo.stars ++ "\nLink: " ++ repo.link ++ "\n\n"
              ++ "Top 3 Recent Commits:\n"
              ++ ("Commit " ++ "1" ++ " by " ++ c1.author ++ ":\n"
                  ++ String.mk ((c1.diff.data.take 200).map
                      (fun ch => if ch = '\n' then ' ' else ch)) ++ "...\n\n")
              ++ ("Commit " ++ "2" ++ " by " ++ c2.author ++ ":\n"
                  ++ String.mk ((c2.diff.data.take 200).map
                      (fun ch => if ch = '\n' then ' ' else ch)) ++ "...\n\n")
              ++ ("Commit " ++ "3" ++ " by " ++ c3.author ++ ":\n"
                  ++ String.mk ((c3.diff.data.take 200).map
                      (fun ch => if ch = '\n' then ' ' else ch)) ++ "...\n\n")
              ++ (let acc := churnFold [c1, c2, c3]
                  if 0 < acc.countStats then
                    avgLine (jsRound acc.totalAdditions acc.countStats)
                      (jsRound acc.totalDeletions acc.countStats)
                  else "")) := by
  refine ⟨rfl, rfl, ?_⟩
  intro repo c1 c2 c3 c4 c5 h
  show summarizeBody repo = _
  have t1 : toString (0 + 1) = "1" := rfl
  have t2 : toString (1 + 1) = "2" := rfl
  have t3 : toString (2 + 1) = "3" := rfl
  simp only [summarizeBody, h, List.isEmpty_cons, List.take_succ_cons,
    List.take_zero, commitsBlock, commitsBlockAux, commitLine, diffExcerpt,
    summaryHeader, t1, t2, t3, Bool.false_eq_true, if_false]
  simp only [String.append_assoc, String.append_empty]
  split <;> simp [String.append_assoc, String.append_empty]

/-- Claim C5 (witness): the five-commit digest at the concrete repository. -/
theorem C5_digest_empty_and_five_commits_witness :
    (summarizeScrapedData [wRepo5]).1 =
      "Top Repository:\n" ++ "Name: " ++ wRepo5.name ++ "\nStars: "
        ++ toString wRepo5.stars ++ "\nLink: " ++ wRepo5.link ++ "\n\n"
        ++ "Top 3 Recent Commits:\n"
        ++ ("Commit " ++ "1" ++ " by " ++ wCommit1.author ++ ":\n"
            ++ String.mk ((wCommit1.diff.data.take 200).map
                (fun ch => if ch = '\n' then ' ' else ch)) ++ "...\n\n")
        ++ ("Commit " ++ "2" ++ " by " ++ wCommit2.author ++ ":\n"
            ++ String.mk ((wCommit2.diff.data.take 200).map
                (fun ch => if ch = '\n' then ' ' else ch)) ++ "...\n\n")
        ++ ("Commit " ++ "3" ++ " by " ++ wCommit3.author ++ ":\n"
            ++ String.mk ((wCommit3.diff.data.take 200).map
                (fun ch => if ch = '\n' then ' ' else ch)) ++ "...\n\n")
        ++ (let acc := churnFold [wCommit1, wCommit2, wCommit3]
            if 0 < acc.countStats then
              avgLine (jsRound acc.totalAdditions acc.countStats)
                (jsRound acc.totalDeletions acc.countStats)
            else "") :=
  C5_digest_empty_and_five_commits.2.2 wRepo5 wCommit1 wCommit2 wCommit3
    wCommit4 wCommit5 rfl

/-- Claim C3 (counterexample): at a repository whose two included commits have
stats averaging to (15, 3) but whose stored averageAdditions and
averageDeletions fields are 999, the email-stage Digest Summarizer appends the
line built from 999, not from the averages over the included commits. -/
theorem C3_cex_email_digest_precomputed :
    (summarizeScrapedDataEmail [cRepoAvg]).1
        = summaryHeader cRepoAvg ++ "Top 3 Recent Commits:\n"
          ++ commitsBlock [cCommitA, cCommitB] ++ avgLine 999 999
      ∧ metricsSpec ((cRepoAvg.commits.take 3).filterMap CommitRec.stats) = (15, 3)
      ∧ avgLine 999 999 ≠ avgLine 15 3 := by
  refine ⟨by decide, by decide, by decide⟩

/-- Claim C3 (amended): when the sorted-first repository has at least one
commit with stats among its included (first up to 3) commits, the scrape-stage
Digest Summarizer appends the average line computed across exactly those
included commits; the email-stage Digest Summarizer instead appends the
repository-level precomputed averageAdditions and averageDeletions fields
whenever both are defined, regardless of the included commits. -/
theorem C3_digest_average_sources (l : List RepoRec) (repo : RepoRec)
    (rest : List RepoRec) (hsort : sortByStarsDesc l = repo :: rest) :
    ((repo.commits.take 3).filterMap CommitRec.stats ≠ [] →
        (summarizeScrapedData l).1
          = summaryHeader repo ++ "Top 3 Recent Commits:\n"
            ++ commitsBlock (repo.commits.take 3)
            ++ avgLine
                (metricsSpec ((repo.commits.take 3).filterMap CommitRec.stats)).1
                (metricsSpec ((repo.commits.take 3).filterMap CommitRec.stats)).2)
      ∧ (∀ a d : Nat,
          repo.averageAdditions = some a → repo.averageDeletions = some d →
          (summarizeScrapedDataEmail l).1
            = (if repo.commits.isEmpty then summaryHeader repo
               else summaryHeader repo ++ "Top 3 Recent Commits:\n"
                 ++ commitsBlock (repo.commits.take 3)) ++ avgLine a d) := by
  constructor
  · intro hq
    have h1 : (summarizeScrapedData l).1 = summarizeBody repo := by
      unfold summarizeScrapedData
      rw [hsort]
    have hlen : ((repo.commits.take 3).filterMap CommitRec.stats).length ≠ 0 :=
      fun h0 => hq (List.length_eq_zero.mp h0)
    have hne : repo.commits.isEmpty = false := by
      cases hc : repo.commits with
      | nil => exact absurd (by simp [hc]) hq
      | cons x xs => simp [hc]
    rw [h1]
    unfold summarizeBody
    simp only [hne, Bool.false_eq_true, if_false, churnFold_eq, metricsSpec,
      hlen, Nat.pos_iff_ne_zero, ne_eq, not_false_eq_true, if_true]
  · intro a d ha hd
    have h1 : (summarizeScrapedDataEmail l).1 = emailBody repo := by
      unfold summarizeScrapedDataEmail
      rw [hsort]
    rw [h1]
    unfold emailBody
    rw [ha, hd]

/-- Claim C3 (witness): both digest variants evaluated at the concrete
repository whose stored averages are 999. -/
theorem C3_digest_average_sources_witness :
    ((summarizeScrapedData [cRepoAvg]).1
        = summaryHeader cRepoAvg ++ "Top 3 Recent Commits:\n"
          ++ commitsBlock (cRepoAvg.commits.take 3)
          ++ avgLine
              (metricsSpec ((cRepoAvg.commits.take 3).filterMap CommitRec.stats)).1
              (metricsSpec ((cRepoAvg.commits.take 3).filterMap CommitRec.stats)).2)
      ∧ ((summarizeScrapedDataEmail [cRepoAvg]).1
          = (if cRepoAvg.commits.isEmpty then summaryHeader cRepoAvg
             else summaryHeader cRepoAvg ++ "Top 3 Recent Commits:\n"
               ++ commitsBlock (cRepoAvg.commits.take 3)) ++ avgLine 999 999) :=
  ⟨(C3_digest_average_sources [cRepoAvg] cRepoAvg [] rfl).1 (by decide),
   (C3_digest_average_sources [cRepoAvg] cRepoAvg [] rfl).2 999 999 rfl rfl⟩

/-- Claim C7: the Commit Aggregator renders a commit with zero changed files
as exactly the sentinel; a nonempty file list renders one block per file
joined by a newline (each block ends in a newline, so consecutive blocks are
separated by a blank line), a file with a patch — a truthy, hence non-empty,
patch string — as a File line followed by the patch, and a file without one
(absent or empty, both falsy) as a File line ending in the no-patch marker. -/
theorem C7_diff_text_rendering :
    (diffText [] = "No file changes found for this commit.")
      ∧ (∀ f : FileRec, diffText [f] = renderFile f)
      ∧ (∀ n1 p n2 : String, p ≠ "" →
          diffText [{ filename := n1, patch := some p },
                    { filename := n2, patch := none }]
            = ("File: " ++ n1 ++ "\n" ++ p ++ "\n") ++ "\n"
              ++ ("File: " ++ n2 ++ " (no patch available)\n"))
      ∧ (∀ n : String,
          renderFile { filename := n, patch := some "" }
            = "File: " ++ n ++ " (no patch available)\n")
      ∧ (∀ (f : FileRec) (fs : List FileRec),
          diffText (f :: fs)
            = String.intercalate "\n" (renderFile f :: fs.map renderFile)) := by
  refine ⟨rfl, fun f => rfl, ?_, fun n => rfl, fun f fs => rfl⟩
  intro n1 p n2 hp
  have hr : renderFile { filename := n1, patch := some p }
      = "File: " ++ n1 ++ "\n" ++ p ++ "\n" := by
    simp [renderFile, hp]
  show String.intercalate "\n"
      [renderFile { filename := n1, patch := some p },
       renderFile { filename := n2, patch := none }] = _
  rw [hr]
  rfl

/-- Claim C7 (witness): the two-file rendering at a concrete commit detail
with one real patch and one missing patch. -/
theorem C7_diff_text_rendering_witness :
    diffText [{ filename := "a.txt", patch := some "p1" },
              { filename := "b.txt", patch := none }]
      = ("File: " ++ "a.txt" ++ "\n" ++ "p1" ++ "\n") ++ "\n"
        ++ ("File: " ++ "b.txt" ++ " (no patch available)\n") :=
  C7_diff_text_rendering.2.2.1 "a.txt" "p1" "b.txt" (by decide)

/-- dropWhile on not-a-slash consumes a slash-free block and stops at the
slash. -/
theorem dropWhile_to_slash (l t : List Char) (h : '/' ∉ l) :
    (l ++ '/' :: t).dropWhile (fun c => !(c == '/')) = '/' :: t := by
  induction l with
  | nil => simp [List.dropWhile_cons]
  | cons c cs ih =>
    have hc : c ≠ '/' := fun e => h (e ▸ List.mem_cons_self c cs)
    have hb : (c == '/') = false := beq_eq_false_iff_ne.mpr hc
    simp only [List.cons_append, List.dropWhile_cons, hb, Bool.not_false,
      if_true]
    exact ih fun m => h (List.mem_cons_of_mem c m)

/-- dropWhile keeps nothing of a list all of whose elements satisfy the
predicate. -/
theorem dropWhile_all {α : Type} (p : α → Bool) (l : List α)
    (h : ∀ c ∈ l, p c = true) : l.dropWhile p = [] := by
  induction l with
  | nil => rfl
  | cons c cs ih =>
    simp only [List.dropWhile_cons, h c (List.mem_cons_self c cs), if_true]
    exact ih fun x hx => h x (List.mem_cons_of_mem c hx)

/-- takeWhile keeps all of a list all of whose elements satisfy the
predicate. -/
theorem takeWhile_all {α : Type} (p : α → Bool) (l : List α)
    (h : ∀ c ∈ l, p c = true) : l.takeWhile p = l := by
  induction l with
  | nil => rfl
  | cons c cs ih =>
    simp only [List.takeWhile_cons, h c (List.mem_cons_self c cs), if_true]
    rw [ih fun x hx => h x (List.mem_cons_of_mem c hx)]

/-- The split of a character list on slashes is never the empty list of
segments. -/
theorem splitOnSlash_ne_nil (cs : List Char) : splitOnSlash cs ≠ [] := by
  cases cs with
  | nil => simp [splitOnSlash]
  | cons c rest =>
    simp only [splitOnSlash]
    split
    · simp
    · split <;> simp

/-- Splitting a list starting with a slash-free segment yields that segment
first. -/
theorem splitOnSlash_append (seg rest : List Char) (h : '/' ∉ seg) :
    splitOnSlash (seg ++ '/' :: rest) = seg :: splitOnSlash rest := by
  induction seg with
  | nil => simp [splitOnSlash]
  | cons c cs ih =>
    have hc : c ≠ '/' := fun e => h (e ▸ List.mem_cons_self c cs)
    have ih' : splitOnSlash (cs.append ('/' :: rest)) = cs :: splitOnSlash rest :=
      ih fun m => h (List.mem_cons_of_mem c m)
    simp only [List.cons_append, splitOnSlash, if_neg hc, ih']

/-- Claim C6: the Organization Resolver returns exactly the first non-empty
path segment of an http(s) organization URL (empty segments from consecutive
or trailing slashes discarded), fails with InvalidProfileURL when the path
yields zero non-empty segments, and fails with InvalidProfileURL when the URL
cannot be parsed; the resolver is a pure function of the URL string. -/
theorem C6_org_resolver :
    (∀ host org extra : List Char,
        '/' ∉ host → org ≠ [] → '/' ∉ org → '?' ∉ org → '#' ∉ org →
        '?' ∉ extra → '#' ∉ extra →
        resolveOrgChars
            ('h' :: 't' :: 't' :: 'p' :: 's' :: ':' :: '/' :: '/' ::
              (host ++ '/' :: (org ++ '/' :: extra)))
          = .ok (String.mk org))
      ∧ (∀ host : List Char, '/' ∉ host →
          resolveOrgChars
              ('h' :: 't' :: 't' :: 'p' :: 's' :: ':' :: '/' :: '/' :: host)
            = .error .invalidProfileURL)
      ∧ (∀ cs : List Char, dropScheme cs = none →
          resolveOrgChars cs = .error .invalidProfileURL) := by
  refine ⟨?_, ?_, ?_⟩
  · intro host org extra hhost horg hos hoq hoh heq heh
    have hall : ∀ c ∈ ('/' :: (org ++ '/' :: extra)),
        (!(c == '?') && !(c == '#')) = true := by
      intro c hc
      have hq : c ≠ '?' := by
        rintro rfl
        rcases List.mem_cons.mp hc with h | h
        · exact absurd h.symm (by decide)
        rcases List.mem_append.mp h with h | h
        · exact hoq h
        rcases List.mem_cons.mp h with h | h
        · exact absurd h.symm (by decide)
        · exact heq h
      have hh : c ≠ '#' := by
        rintro rfl
        rcases List.mem_cons.mp hc with h | h
        · exact absurd h.symm (by decide)
        rcases List.mem_append.mp h with h | h
        · exact hoh h
        rcases List.mem_cons.mp h with h | h
        · exact absurd h.symm (by decide)
        · exact heh h
      simp [beq_eq_false_iff_ne.mpr hq, beq_eq_false_iff_ne.mpr hh]
    have hpath : pathnameChars (host ++ '/' :: (org ++ '/' :: extra))
        = '/' :: (org ++ '/' :: extra) := by
      unfold pathnameChars
      rw [dropWhile_to_slash host (org ++ '/' :: extra) hhost]
      exact takeWhile_all _ _ hall
    have hsplit : splitOnSlash ('/' :: (org ++ '/' :: extra))
        = [] :: org :: splitOnSlash extra := by
      have h1 : splitOnSlash ('/' :: (org ++ '/' :: extra))
          = [] :: splitOnSlash (org ++ '/' :: extra) := by
        simp [splitOnSlash]
      rw [h1, splitOnSlash_append org extra hos]
    have hd : dropScheme ('h' :: 't' :: 't' :: 'p' :: 's' :: ':' :: '/' :: '/'
        :: (host ++ '/' :: (org ++ '/' :: extra)))
        = some (host ++ '/' :: (org ++ '/' :: extra)) := rfl
    simp only [resolveOrgChars, hd, hpath, hsplit]
    simp [List.filter_cons, horg]
  · intro host hhost
    have hpath : pathnameChars host = [] := by
      unfold pathnameChars
      rw [dropWhile_all _ host (fun c hc => by
        have : c ≠ '/' := fun e => hhost (e ▸ hc)
        simp [beq_eq_false_iff_ne.mpr this])]
      rfl
    have hd : dropScheme ('h' :: 't' :: 't' :: 'p' :: 's' :: ':' :: '/' :: '/'
        :: host) = some host := rfl
    simp only [resolveOrgChars, hd, hpath]
    simp [splitOnSlash]
  · intro cs h
    simp only [resolveOrgChars, h]

/-- Claim C6 (witness): the resolver at the concrete URL with a nested path
and consecutive and trailing slashes. -/
theorem C6_org_resolver_witness :
    resolveOrgChars
        ('h' :: 't' :: 't' :: 'p' :: 's' :: ':' :: '/' :: '/' ::
          ("github.com".data ++ '/' :: ("acme".data ++ '/' :: "x//y/".data)))
      = .ok (String.mk "acme".data) :=
  C6_org_resolver.1 "github.com".data "acme".data "x//y/".data (by decide)
    (by decide) (by decide) (by decide) (by decide) (by decide) (by decide)

/-- The people entry of an author keeps the author string as username in both
the success and the failure branch. -/
theorem mkPerson_username (env : NiceEnv) (a : String) :
    (mkPerson env a).username = a := by
  unfold mkPerson
  cases h : env.getUser a <;> simp [h]

/-- Claim C8: the Contributor Enricher produces exactly one ContributorProfile
per distinct commit author string, in first-occurrence order (so authors
a, b, a, c give exactly 3 entries), and an author whose profile fetch,
repository fetch or generation-service call fails gets the empty technology
list, with no error leaving the enrichment. -/
theorem C8_contributor_enricher :
    (∀ (env : NiceEnv) (commits : List CommitRec),
        (peopleOf env commits).map Person.username
          = dedupKeepFirst (commits.map CommitRec.author))
      ∧ (∀ (env : NiceEnv) (a b c : String), a ≠ b → a ≠ c → b ≠ c →
          (peopleOf env
              [authoredCommit a, authoredCommit b, authoredCommit a,
               authoredCommit c]).length = 3)
      ∧ (∀ (env : NiceEnv) (author : String) (e : UpErr),
          env.getUser author = .error e →
          getTechnologiesForContributor env author = [])
      ∧ (∀ (env : NiceEnv) (author : String) (e : UpErr),
          env.listReposForUser author = .error e →
          getTechnologiesForContributor env author = [])
      ∧ (∀ (env : NiceEnv) (author : String) (ge : GenErr),
          (∀ bio repoInfo, env.chatTech bio repoInfo = .error ge) →
          getTechnologiesForContributor env author = []) := by
  refine ⟨?_, ?_, ?_, ?_, ?_⟩
  · intro env commits
    simp [peopleOf, List.map_map, Function.comp_def, mkPerson_username]
  · intro env a b c hab hac hbc
    simp [peopleOf, dedupKeepFirst, dedupAux, authoredCommit,
      hab, Ne.symm hab, hac, Ne.symm hac, hbc, Ne.symm hbc]
  · intro env author e h
    simp [getTechnologiesForContributor, h]
  · intro env author e h
    cases hu : env.getUser author with
    | error e2 => simp [getTechnologiesForContributor, hu]
    | ok u => simp [getTechnologiesForContributor, hu, h]
  · intro env author ge hchat
    cases hu : env.getUser author with
    | error e2 => simp [getTechnologiesForContributor, hu]
    | ok u =>
      cases hr : env.listReposForUser author with
      | error e2 => simp [getTechnologiesForContributor, hu, hr]
      | ok repos =>
        cases repos with
        | nil => simp [getTechnologiesForContributor, hu, hr, hchat]
        | cons t ts =>
          cases hl : env.listLanguages author t.name with
          | error e2 => simp [getTechnologiesForContributor, hu, hr, hl]
          | ok langs => simp [getTechnologiesForContributor, hu, hr, hl, hchat]

/-- Claim C8 (witness): three entries for authors a, b, a, c and the empty
technology list under the all-failing environment. -/
theorem C8_contributor_enricher_witness :
    (peopleOf envNiceDbNone
        [authoredCommit "a", authoredCommit "b", authoredCommit "a",
         authoredCommit "c"]).length = 3
      ∧ getTechnologiesForContributor envNiceDbNone "a" = [] :=
  ⟨C8_contributor_enricher.2.1 envNiceDbNone "a" "b" "c" (by decide) (by decide)
      (by decide),
   C8_contributor_enricher.2.2.1 envNiceDbNone "a" .unavailable rfl⟩

/-- Claim C2 (counterexample): with the company record present, a parsable
website and a failing repository listing, the scrape stage issues no update at
all — in particular it does not persist an empty aggregate result. -/
theorem C2_cex_listing_failure_not_persisted :
    mainScrape envListFail = none ∧ mainScrape envListFail ≠ some [] := by
  refine ⟨by decide, by decide⟩

/-- Claim C2 (amended): when the repository-listing call fails, the error
reaches the stage-level catch of scrape.js, the failure is logged there, and
the stage returns without persisting anything for the company: no update — not
even an empty aggregate — is issued to the record store. -/
theorem C2_listing_failure_aborts_stage (env : ScrapeEnv) (company : Company)
    (orgName : String) (e : UpErr)
    (hdb : env.db = .ok (some company))
    (hurl : resolveOrg company.website = .ok orgName)
    (hlist : env.listForOrg orgName = .error e) :
    mainScrape env = none := by
  simp [mainScrape, hdb, hurl, hlist]

/-- Claim C2 (witness): the amended behavior at the concrete failing
environment. -/
theorem C2_listing_failure_aborts_stage_witness :
    mainScrape envListFail = none :=
  C2_listing_failure_aborts_stage envListFail companyAcme "acme" .unavailable
    rfl rfl rfl

/-- Claim C9: every stage entry point whose record-store lookup reports no
such company, or an error, returns without issuing any update to the store,
so the company record's scraped_data, nice_data and email fields are left
unchanged. -/
theorem C9_notfound_no_store_update (senv : ScrapeEnv) (nenv : NiceEnv)
    (eenv : EmailEnv) :
    ((senv.db = .ok none ∨ ∃ e, senv.db = .error e) → mainScrape senv = none)
      ∧ ((nenv.db = .ok none ∨ ∃ e, nenv.db = .error e) →
          updateNiceData nenv = none)
      ∧ ((eenv.db = .ok none ∨ ∃ e, eenv.db = .error e) →
          emailMain eenv = none) := by
  refine ⟨?_, ?_, ?_⟩ <;> rintro (h | ⟨e, h⟩) <;>
    simp [mainScrape, updateNiceData, emailMain, h]

/-- Claim C9 (witness): all three stages at environments whose lookup finds no
row. -/
theorem C9_notfound_no_store_update_witness :
    mainScrape envScrapeDbNone = none
      ∧ updateNiceData envNiceDbNone = none
      ∧ emailMain envEmailDbNone = none :=
  ⟨(C9_notfound_no_store_update envScrapeDbNone envNiceDbNone envEmailDbNone).1
      (Or.inl rfl),
   (C9_notfound_no_store_update envScrapeDbNone envNiceDbNone envEmailDbNone).2.1
      (Or.inl rfl),
   (C9_notfound_no_store_update envScrapeDbNone envNiceDbNone envEmailDbNone).2.2
      (Or.inl rfl)⟩

/-- Claim C10: every CommitRecord the scrape stage persists carries a stats
value — when the upstream commit detail lacks stats the stored tuple is the
all-zero one, indistinguishable from a genuine zero-change commit. -/
theorem C10_persisted_stats_nonnull :
    (∀ (env : ScrapeEnv) (results : List RepoRec),
        mainScrape env = some results →
        ∀ r ∈ results, ∀ c ∈ r.commits, c.stats ≠ none)
      ∧ (∀ d : CommitDetail, d.stats = none →
          (mkCommitRecord d).stats = some ⟨0, 0, 0⟩) := by
  constructor
  · intro env results h r hr c hc
    unfold mainScrape at h
    split at h
    · exact absurd h (by simp)
    · exact absurd h (by simp)
    · rename_i company
      split at h
      · exact absurd h (by simp)
      · rename_i orgName
        split at h
        · exact absurd h (by simp)
        · rename_i repos
          simp only [Option.some.injEq] at h
          subst h
          obtain ⟨raw, _, hrep⟩ := List.mem_map.mp hr
          subst hrep
          simp only [processRepo] at hc
          unfold fetchCommits at hc
          split at hc
          · simp at hc
          · obtain ⟨sha, _, hsha⟩ := List.mem_filterMap.mp hc
            revert hsha
            split
            · intro hsha; exact absurd hsha (by simp)
            · intro hsha
              simp only [Option.some.injEq] at hsha
              subst hsha
              simp [mkCommitRecord]
  · intro d h
    simp [mkCommitRecord, h]

/-- Claim C10 (witness): the invariant at the successful environment whose one
commit detail lacks stats. -/
theorem C10_persisted_stats_nonnull_witness :
    (mkCommitRecord detailNoStats).stats ≠ none :=
  C10_persisted_stats_nonnull.1 envScrapeOk
    [processRepo envScrapeOk "acme" rawRepoOk] (by decide)
    (processRepo envScrapeOk "acme" rawRepoOk) (by decide)
    (mkCommitRecord detailNoStats) (by decide)

end ManagerAI
